import Mathlib

set_option linter.unusedVariables false

/-
Verification development for the mariadb-mcp repository.

Shallow embedding of:
  * the SQL query validator (src/validators.ts: isAlloowedQuery and its
    helper constant lists),
  * the connection/execution pipeline (src/connection.ts: executeQuery,
    convertBigIntToString, the row cap, getConfigFromEnv),
with theorems settling the frozen claims about the specification.

Conventions of the embedding:
  * JavaScript strings are modelled as Lean String / List Char; the regex
    operations of the source are translated operation by operation.
  * The mutable module-level pool / connection variables of connection.ts
    become an explicit ModuleState threaded through executeQuery, and the
    database driver is an oracle (DbBehavior) saying which of the fallible
    driver calls fail and what raw result a successful query returns.
  * JavaScript numbers that can be NaN are modelled as Option Int with
    none standing for NaN.
-/

namespace MariadbMcp

/-! ### Character-level helpers for the validator's regex pipeline -/

/-- The character class matched by the JavaScript regex class backslash-s
(whitespace), by code point.  Used for the whitespace-collapsing replace,
for trim, and for the word boundaries of the disallowed-command regex. -/
def isJsSpace (c : Char) : Bool :=
  c.val == 9 || c.val == 10 || c.val == 11 || c.val == 12 || c.val == 13 ||
  c.val == 32 || c.val == 160 || c.val == 0x1680 ||
  (0x2000 ≤ c.val && c.val ≤ 0x200a) ||
  c.val == 0x2028 || c.val == 0x2029 || c.val == 0x202f ||
  c.val == 0x205f || c.val == 0x3000 || c.val == 0xfeff

/-- State machine for the replace of two dashes followed by anything up to
end of line (global, multiline): the Bool says whether we are currently
inside a line comment.  The terminating newline is kept, as the regex
dot does not match it. -/
def stripLCAux : Bool → List Char → List Char
  | true, [] => []
  | true, c :: rest =>
    if c = '\n' then '\n' :: stripLCAux false rest else stripLCAux true rest
  | false, [] => []
  | false, '-' :: '-' :: rest => stripLCAux true rest
  | false, c :: rest => c :: stripLCAux false rest

/-- First normalization step of isAlloowedQuery: remove single-line comments. -/
def stripLineComments (s : List Char) : List Char :=
  stripLCAux false s

/-- Scan for the closing star-slash of a block comment; some r is the text
after the first closer, none if no closer exists. -/
def dropToClose : List Char → Option (List Char)
  | [] => none
  | '*' :: '/' :: rest => some rest
  | _ :: rest => dropToClose rest

/-- Fuel-indexed worker for block-comment removal (the non-greedy global
replace of slash-star up to the first star-slash).  The fuel starts at the
length of the input, which strictly bounds the number of steps, so the
fuel-exhausted branch is unreachable. -/
def stripBCAux : Nat → List Char → List Char
  | 0, s => s
  | _ + 1, [] => []
  | fuel + 1, '/' :: '*' :: rest =>
    match dropToClose rest with
    | some r => stripBCAux fuel r
    | none => '/' :: '*' :: rest
  | fuel + 1, c :: rest => c :: stripBCAux fuel rest

/-- Second normalization step of isAlloowedQuery: remove multi-line comments.
An unterminated block comment is left in place, exactly as the non-greedy
regex leaves it unmatched. -/
def stripBlockComments (s : List Char) : List Char :=
  stripBCAux s.length s

/-- State machine for the whitespace-collapsing replace (every maximal run
of whitespace becomes one space); the Bool records whether the previous
character belonged to a whitespace run. -/
def collapseWsAux : Bool → List Char → List Char
  | _, [] => []
  | afterSpace, c :: rest =>
    if isJsSpace c then
      if afterSpace then collapseWsAux true rest
      else ' ' :: collapseWsAux true rest
    else c :: collapseWsAux false rest

/-- Third normalization step of isAlloowedQuery: collapse whitespace runs
to single spaces. -/
def collapseWs (s : List Char) : List Char :=
  collapseWsAux false s

/-- JavaScript String.prototype.trim: drop whitespace from both ends. -/
def trimChars (s : List Char) : List Char :=
  ((s.dropWhile isJsSpace).reverse.dropWhile isJsSpace).reverse

/-- The full normalization pipeline of isAlloowedQuery: strip line comments,
strip block comments, collapse whitespace, trim, uppercase.  (Char.toUpper
uppercases the ASCII range, which is all: SQL keywords are ASCII.) -/
def normalizeQuery (q : String) : String :=
  ⟨(trimChars (collapseWs (stripBlockComments (stripLineComments q.data)))).map
    Char.toUpper⟩

/-! ### The validator's constant command lists (src/validators.ts) -/

/-- Base list of SQL commands that could be allowed. -/
def BASE_ALLOWED_COMMANDS : List String :=
  ["SELECT", "SHOW", "DESCRIBE", "DESC", "EXPLAIN"]

/-- List of disallowed SQL commands (write operations). -/
def DISALLOWED_COMMANDS : List String :=
  ["DROP", "CREATE", "ALTER", "TRUNCATE", "RENAME", "REPLACE", "GRANT",
   "REVOKE", "LOCK", "UNLOCK", "CALL", "EXEC", "EXECUTE", "START", "BEGIN",
   "COMMIT", "ROLLBACK"]

/-- The three write-permission environment flags
(MARIADB_ALLOW_INSERT / _UPDATE / _DELETE read as the string true). -/
structure Flags where
  allowInsert : Bool
  allowUpdate : Bool
  allowDelete : Bool

/-- The dynamic allowed-commands list: the base list with the conditional
write commands pushed in the order INSERT, UPDATE, DELETE when the matching
flag is enabled. -/
def allowedCommands (f : Flags) : List String :=
  BASE_ALLOWED_COMMANDS ++
  (if f.allowInsert then ["INSERT"] else []) ++
  (if f.allowUpdate then ["UPDATE"] else []) ++
  (if f.allowDelete then ["DELETE"] else [])

/-! ### The validator's checks -/

/-- List-of-characters prefix test (JavaScript String.prototype.startsWith). -/
def listPre : List Char → List Char → Bool
  | [], _ => true
  | _ :: _, [] => false
  | a :: as, b :: bs => decide (a = b) && listPre as bs

/-- JavaScript String.prototype.endsWith, via reversed prefix test. -/
def strEndsWith (s p : String) : Bool :=
  listPre p.data.reverse s.data.reverse

/-- One disjunct of startsWithAllowed: the normalized query starts with the
command followed by a space, or equals the command exactly. -/
def beginsWithCmd (nq cmd : String) : Bool :=
  listPre (cmd.data ++ [' ']) nq.data || decide (nq.data = cmd.data)

/-- Check if query starts with an allowed command. -/
def startsWithAllowed (f : Flags) (nq : String) : Bool :=
  (allowedCommands f).any (beginsWithCmd nq)

/-- The lookahead part of the disallowed-command regex: after the command
there must be a whitespace character or the end of the string. -/
def boundaryOk : List Char → Bool
  | [] => true
  | c :: _ => isJsSpace c

/-- Existence of a match of the regex (start-or-whitespace) w
(whitespace-or-end) in a character list: w occurs at some position that is
preceded by start-of-string or whitespace (the flag atB carries that
boundary information) and followed by whitespace or end-of-string. -/
def occursStandalone (w : List Char) : List Char → Bool → Bool
  | [], atB => atB && listPre w [] && boundaryOk (([] : List Char).drop w.length)
  | c :: rest, atB =>
    (atB && listPre w (c :: rest) && boundaryOk ((c :: rest).drop w.length)) ||
    occursStandalone w rest (isJsSpace c)

/-- Check if query contains any disallowed commands (the some over
DISALLOWED_COMMANDS of the word-boundary regex test). -/
def containsDisallowed (nq : String) : Bool :=
  DISALLOWED_COMMANDS.any (fun cmd => occursStandalone cmd.data nq.data true)

/-- Check for multiple statements: the normalized query includes a semicolon
and does not end with one. -/
def hasMultipleStatements (nq : String) : Bool :=
  decide (';' ∈ nq.data) && !(strEndsWith nq ";")

/-- Validates if a SQL query is read-only (src/validators.ts
isAlloowedQuery).  The MariaDB 10.0.38 compatibility scan of the source
only writes a console warning and never affects the returned value, so it
is not part of the decision modelled here.  The query is allowed iff it
starts with an allowed command, contains no disallowed command, and has no
multiple statements. -/
def isAlloowedQuery (f : Flags) (query : String) : Bool :=
  let nq := normalizeQuery query
  startsWithAllowed f nq && !containsDisallowed nq && !hasMultipleStatements nq

/-- The first whitespace-delimited token of a normalized query. -/
def firstTok (nq : String) : List Char :=
  nq.data.takeWhile (fun c => !decide (c = ' '))

/-- Modelled from the spec: the spec's multi-statement criterion, which is
not code of src/validators.ts — "the normalized text contains a
statement-separator character that is not solely a single trailing one".
Used only to compare the spec's wording with the source's check. -/
def specMultiStatement (s : String) : Bool :=
  let n := s.data.countP (fun c => decide (c = ';'))
  decide (1 ≤ n) && !(decide (n = 1) && strEndsWith s ";")

/-- Flag triple with every write permission disabled (the documented
default configuration). -/
def noFlags : Flags := ⟨false, false, false⟩

/-- Flag triple with every write permission enabled. -/
def allFlags : Flags := ⟨true, true, true⟩

/-! ### Result values and normalization (src/connection.ts) -/

/-- JavaScript values as they occur in driver results: null, undefined,
booleans, ordinary numbers (modelled as integers; their exact numeric type
is irrelevant, they are only ever passed through), text, bigint (the
driver's representation of wide integers beyond safe numeric range),
arrays, and plain objects (ordered key/value fields). -/
inductive JSValue where
  | vnull
  | vundef
  | vbool (b : Bool)
  | vnum (n : Int)
  | vstr (s : String)
  | vbigint (i : Int)
  | varr (elems : List JSValue)
  | vobj (fields : List (String × JSValue))

mutual

/-- Convert BigInt values to strings for JSON serialization
(src/connection.ts convertBigIntToString): null and undefined are returned
as is, a bigint becomes its decimal string, arrays and objects are walked
recursively, everything else is returned unchanged. -/
def convertBigIntToString : JSValue → JSValue
  | JSValue.vnull => JSValue.vnull
  | JSValue.vundef => JSValue.vundef
  | JSValue.vbigint i => JSValue.vstr (toString i)
  | JSValue.varr l => JSValue.varr (convertJSList l)
  | JSValue.vobj fs => JSValue.vobj (convertJSFields fs)
  | JSValue.vbool b => JSValue.vbool b
  | JSValue.vnum n => JSValue.vnum n
  | JSValue.vstr s => JSValue.vstr s

/-- convertBigIntToString mapped over the elements of an array. -/
def convertJSList : List JSValue → List JSValue
  | [] => []
  | v :: vs => convertBigIntToString v :: convertJSList vs

/-- convertBigIntToString mapped over the values of an object's fields. -/
def convertJSFields : List (String × JSValue) → List (String × JSValue)
  | [] => []
  | (k, v) :: rest => (k, convertBigIntToString v) :: convertJSFields rest

end

mutual

/-- Whether a value contains a bigint anywhere (at any nesting depth). -/
def hasBigInt : JSValue → Bool
  | JSValue.vbigint _ => true
  | JSValue.varr l => hasBigIntList l
  | JSValue.vobj fs => hasBigIntFields fs
  | _ => false

/-- hasBigInt over the elements of an array. -/
def hasBigIntList : List JSValue → Bool
  | [] => false
  | v :: vs => hasBigInt v || hasBigIntList vs

/-- hasBigInt over the values of an object's fields. -/
def hasBigIntFields : List (String × JSValue) → Bool
  | [] => false
  | (_, v) :: rest => hasBigInt v || hasBigIntFields rest

end

/-- Default row limit for query results (src/connection.ts
DEFAULT_ROW_LIMIT; the hard-coded constant used by executeQuery). -/
def DEFAULT_ROW_LIMIT : Nat := 1000

/-- Apply row limit if result is an array (the limitedRows expression of
executeQuery): an array longer than the limit is sliced to its first
DEFAULT_ROW_LIMIT entries, anything else is passed through. -/
def limitRows (rows : JSValue) : JSValue :=
  match rows with
  | JSValue.varr l =>
    if l.length > DEFAULT_ROW_LIMIT then JSValue.varr (l.take DEFAULT_ROW_LIMIT)
    else JSValue.varr l
  | v => v

/-- Number of rows of a returned result when it is an array. -/
def numRows : JSValue → Option Nat
  | JSValue.varr l => some l.length
  | _ => none

/-! ### Connection pool and executeQuery control flow (src/connection.ts)

The mariadb driver pool is modelled as a list of idle session identifiers
plus a counter for minting fresh sessions: getConnection hands out the
first idle session, or a fresh one when no session is idle; release puts a
session back at the end of the idle list (the driver's release returns the
session to the pool for reuse — it does not destroy it). -/

/-- The pool: idle sessions and the next fresh session identifier. -/
structure PoolState where
  available : List Nat
  nextId : Nat

/-- pool.getConnection(): an idle session if one exists, else a fresh one. -/
def getConnection : PoolState → Nat × PoolState
  | { available := [], nextId := n } => (n, { available := [], nextId := n + 1 })
  | { available := s :: rest, nextId := n } => (s, { available := rest, nextId := n })

/-- connection.release(): the session goes back to the pool's idle list. -/
def releaseConn (s : Nat) (p : PoolState) : PoolState :=
  { available := p.available ++ [s], nextId := p.nextId }

/-- The module-level mutable state of connection.ts: the lazily created
pool and the shared connection slot. -/
structure ModuleState where
  pool : Option PoolState
  connection : Option Nat

/-- Oracle for the driver calls made during one executeQuery invocation:
whether pool.getConnection rejects, whether the USE statement errors,
whether the main query errors, and the raw result of a successful query. -/
structure DbBehavior where
  acquireFails : Bool
  useFails : Bool
  queryFails : Bool
  rawRows : JSValue

/-- Observable interactions with the connection layer during one call. -/
inductive DbEvent where
  | acquire (s : Nat)
  | useDb (s : Nat) (db : String)
  | runQuery (s : Nat) (sql : String)
  | release (s : Nat)

/-- The guarded release used by both the catch and the finally block of
executeQuery: release the held session (if any) back to the pool and clear
the slot. -/
structure SlotRelease where
  conn : Option Nat
  pool : PoolState
  events : List DbEvent

/-- if (connection) connection.release(), connection = null. -/
def releaseSlot : Option Nat → PoolState → SlotRelease
  | some c, p => { conn := none, pool := releaseConn c p, events := [DbEvent.release c] }
  | none, p => { conn := none, pool := p, events := [] }

/-- The body of executeQuery's try block after the connection is held:
optionally switch database with USE (which can error), then run the
admission check, then execute the main query (which can error), then apply
the row limit and the bigint conversion.  All in the source's order: the
admission check happens after acquisition and after USE. -/
def runWithConn (f : Flags) (beh : DbBehavior) (sql : String)
    (db : Option String) (c : Nat) (p : PoolState) (evs : List DbEvent) :
    Except String JSValue × Option Nat × PoolState × List DbEvent :=
  let evs2 := match db with
    | some d => evs ++ [DbEvent.useDb c d]
    | none => evs
  if db.isSome && beh.useFails then
    (Except.error "use failed", some c, p, evs2)
  else if !(isAlloowedQuery f sql) then
    (Except.error "Query not allowed", some c, p, evs2)
  else if beh.queryFails then
    (Except.error "query failed", some c, p, evs2 ++ [DbEvent.runQuery c sql])
  else
    (Except.ok (convertBigIntToString (limitRows beh.rawRows)), some c, p,
      evs2 ++ [DbEvent.runQuery c sql])

/-- The try block of executeQuery: reuse the shared connection slot if it
is occupied, otherwise acquire a session from the pool (which can fail,
in which case no session is held), then proceed with runWithConn. -/
def tryBody (f : Flags) (beh : DbBehavior) (sql : String) (db : Option String)
    (conn0 : Option Nat) (pst : PoolState) :
    Except String JSValue × Option Nat × PoolState × List DbEvent :=
  match conn0 with
  | some c => runWithConn f beh sql db c pst []
  | none =>
    if beh.acquireFails then (Except.error "acquire failed", none, pst, [])
    else
      let a := getConnection pst
      runWithConn f beh sql db a.1 a.2 [DbEvent.acquire a.1]

/-- The outcome of one executeQuery call: the returned value or the thrown
error, the module state left behind, and the connection-layer events. -/
structure ExecResult where
  outcome : Except String JSValue
  state : ModuleState
  events : List DbEvent

/-- Execute a query with error handling (src/connection.ts executeQuery):
create the pool if absent, run the try body, and on error run the catch
block (guarded release) followed by the finally block (guarded release
again — a no-op because the catch already cleared the slot); on success
run only the finally block.  The returned rows of a successful call are
the row-limited, bigint-converted raw result. -/
def executeQuery (f : Flags) (beh : DbBehavior) (sql : String)
    (db : Option String) (st : ModuleState) : ExecResult :=
  let pst := st.pool.getD { available := [], nextId := 0 }
  match tryBody f beh sql db st.connection pst with
  | (Except.error e, conn1, p1, evs) =>
    let s1 := releaseSlot conn1 p1
    let s2 := releaseSlot s1.conn s1.pool
    { outcome := Except.error e,
      state := { pool := some s2.pool, connection := s2.conn },
      events := evs ++ s1.events ++ s2.events }
  | (Except.ok v, conn1, p1, evs) =>
    let s1 := releaseSlot conn1 p1
    { outcome := Except.ok v,
      state := { pool := some s1.pool, connection := s1.conn },
      events := evs ++ s1.events }

/-- Recognizer for acquisition events. -/
def isAcquireEv : DbEvent → Bool
  | DbEvent.acquire _ => true
  | _ => false

/-- Recognizer for release events. -/
def isReleaseEv : DbEvent → Bool
  | DbEvent.release _ => true
  | _ => false

/-- Recognizer for main-statement execution events. -/
def isRunQueryEv : DbEvent → Bool
  | DbEvent.runQuery _ _ => true
  | _ => false

/-- The session an event concerns. -/
def evSession : DbEvent → Nat
  | DbEvent.acquire s => s
  | DbEvent.useDb s _ => s
  | DbEvent.runQuery s _ => s
  | DbEvent.release s => s

/-- A driver oracle whose main query fails (an execution error) and whose
other calls succeed. -/
def behQueryFails : DbBehavior :=
  { acquireFails := false, useFails := false, queryFails := true,
    rawRows := JSValue.vnull }

/-- A driver oracle in which every call succeeds and the raw result is null. -/
def behOk : DbBehavior :=
  { acquireFails := false, useFails := false, queryFails := false,
    rawRows := JSValue.vnull }

/-! ### Configuration loading (src/connection.ts getConfigFromEnv) -/

/-- The environment variables getConfigFromEnv reads.  none is an unset
variable; some of the empty string is a set-but-empty variable (which is
falsy in JavaScript, exactly like undefined). -/
structure EnvMap where
  host : Option String
  port : Option String
  user : Option String
  password : Option String
  database : Option String
  allowInsert : Option String
  allowUpdate : Option String
  allowDelete : Option String

/-- JavaScript truthiness of a possibly-undefined string: false for
undefined and for the empty string. -/
def truthyEnv : Option String → Bool
  | none => false
  | some s => !decide (s = "")

/-- The numeric value of a run of decimal digits. -/
def digitsToNat (ds : List Char) : Nat :=
  ds.foldl (fun acc c => acc * 10 + (c.toNat - 48)) 0

/-- JavaScript parseInt(s, 10): skip leading whitespace, read an optional
sign and then a maximal run of decimal digits; NaN (modelled as none) when
no digit is found. -/
def parseIntJS (s : String) : Option Int :=
  let cs := s.data.dropWhile isJsSpace
  match cs with
  | '-' :: rest =>
    let ds := rest.takeWhile Char.isDigit
    if ds.isEmpty then none else some (-(Int.ofNat (digitsToNat ds)))
  | '+' :: rest =>
    let ds := rest.takeWhile Char.isDigit
    if ds.isEmpty then none else some (Int.ofNat (digitsToNat ds))
  | _ =>
    let ds := cs.takeWhile Char.isDigit
    if ds.isEmpty then none else some (Int.ofNat (digitsToNat ds))

/-- The configuration record built by getConfigFromEnv (src/types.ts
MariaDBConfig).  The port is a JavaScript number that can be NaN, modelled
as Option Int with none standing for NaN. -/
structure MariaDBConfig where
  host : String
  port : Option Int
  user : String
  password : String
  database : Option String
  allow_insert : Bool
  allow_update : Bool
  allow_delete : Bool

/-- Get MariaDB connection configuration from environment variables
(src/connection.ts getConfigFromEnv): throw when MARIADB_HOST, then
MARIADB_USER, then MARIADB_PASSWORD is falsy (unset or empty); otherwise
build the record, the port being parseInt of MARIADB_PORT when that
variable is truthy and 3306 otherwise. -/
def getConfigFromEnv (env : EnvMap) : Except String MariaDBConfig :=
  if !truthyEnv env.host then
    Except.error "MARIADB_HOST environment variable is required"
  else if !truthyEnv env.user then
    Except.error "MARIADB_USER environment variable is required"
  else if !truthyEnv env.password then
    Except.error "MARIADB_PASSWORD environment variable is required"
  else
    Except.ok
      { host := env.host.getD ""
        port := if truthyEnv env.port then parseIntJS (env.port.getD "")
                else some 3306
        user := env.user.getD ""
        password := env.password.getD ""
        database := env.database
        allow_insert := decide (env.allowInsert = some "true")
        allow_update := decide (env.allowUpdate = some "true")
        allow_delete := decide (env.allowDelete = some "true") }

/-- Whether configuration loading succeeded. -/
def configOk : Except String MariaDBConfig → Bool
  | Except.ok _ => true
  | Except.error _ => false

/-- An environment in which MARIADB_HOST is set to the empty string and the
other required variables are set and non-empty. -/
def envEmptyHost : EnvMap :=
  { host := some "", port := some "3306", user := some "u",
    password := some "p", database := none, allowInsert := none,
    allowUpdate := none, allowDelete := none }

/-- An environment whose MARIADB_PORT is non-numeric text and whose three
required variables are set and non-empty. -/
def envBadPort : EnvMap :=
  { host := some "h", port := some "abc", user := some "u",
    password := some "p", database := none, allowInsert := none,
    allowUpdate := none, allowDelete := none }

/-- The 5000-row sample result used by the row-cap claim: rows numbered in
order. -/
def sampleRows5000 : List JSValue :=
  (List.range 5000).map (fun n => JSValue.vnum (Int.ofNat n))

/-- Well-founded induction principle for JSValue that hands the inductive
hypothesis to every member of an array and every field value of an object. -/
def JSValue.inductionOn (motive : JSValue → Prop)
    (h1 : motive JSValue.vnull) (h2 : motive JSValue.vundef)
    (h3 : ∀ b, motive (JSValue.vbool b)) (h4 : ∀ n, motive (JSValue.vnum n))
    (h5 : ∀ s, motive (JSValue.vstr s)) (h6 : ∀ i, motive (JSValue.vbigint i))
    (h7 : ∀ l, (∀ v, v ∈ l → motive v) → motive (JSValue.varr l))
    (h8 : ∀ fs, (∀ kv, kv ∈ fs → motive kv.2) → motive (JSValue.vobj fs)) :
    ∀ v, motive v
  | JSValue.vnull => h1
  | JSValue.vundef => h2
  | JSValue.vbool b => h3 b
  | JSValue.vnum n => h4 n
  | JSValue.vstr s => h5 s
  | JSValue.vbigint i => h6 i
  | JSValue.varr l =>
    h7 l (fun v hv =>
      JSValue.inductionOn motive h1 h2 h3 h4 h5 h6 h7 h8 v)
  | JSValue.vobj fs =>
    h8 fs (fun kv hkv =>
      JSValue.inductionOn motive h1 h2 h3 h4 h5 h6 h7 h8 kv.2)
termination_by v => sizeOf v
decreasing_by
  · have := List.sizeOf_lt_of_mem hv
    simp only [JSValue.varr.sizeOf_spec]
    omega
  · have h := List.sizeOf_lt_of_mem hkv
    have h2 : sizeOf kv.2 < sizeOf kv := by
      obtain ⟨a, b⟩ := kv
      simp only [Prod.mk.sizeOf_spec]
      omega
    simp only [JSValue.vobj.sizeOf_spec]
    omega

/-! ### Helper lemmas about the validator -/

theorem listPre_iff_pre (p : List Char) : ∀ s, listPre p s = true ↔ p <+: s := by
  induction p with
  | nil => intro s; simp [listPre]
  | cons a as ih =>
    intro s
    cases s with
    | nil => simp [listPre]
    | cons b bs =>
      simp [listPre, List.cons_prefix_cons, ih]

/-- A normalized query starts with a space-free word followed by a space,
or equals that word, exactly when its first space-delimited token is that
word. -/
theorem tok_of_begins (w : List Char) (hw : ' ' ∉ w) :
    ∀ s : List Char, ((w ++ [' ']) <+: s ∨ s = w) ↔
      s.takeWhile (fun c => !decide (c = ' ')) = w := by
  induction w with
  | nil =>
    intro s
    cases s with
    | nil => simp
    | cons c rest =>
      by_cases hc : c = ' '
      · subst hc
        simp [List.takeWhile, List.cons_prefix_cons]
      · simp [List.takeWhile, hc, List.cons_prefix_cons, Ne.symm hc]
  | cons a w ih =>
    have ha : a ≠ ' ' := fun h => hw (h ▸ List.mem_cons_self a w)
    have hw2 : ' ' ∉ w := fun h => hw (List.mem_cons_of_mem a h)
    intro s
    cases s with
    | nil => simp
    | cons c rest =>
      by_cases hc : c = ' '
      · subst hc
        simp [List.takeWhile, List.cons_prefix_cons, ha, Ne.symm ha]
      · have := ih hw2 rest
        simp [List.takeWhile, hc, List.cons_prefix_cons]
        constructor
        · rintro (⟨h1, h2⟩ | ⟨h1, h2⟩)
          · exact ⟨h1.symm, (this.mp (Or.inl h2)) ▸ rfl⟩
          · exact ⟨h1, (this.mp (Or.inr h2)) ▸ rfl⟩
        · rintro ⟨h1, h2⟩
          rcases this.mpr h2 with h3 | h3
          · exact Or.inl ⟨h1.symm, h3⟩
          · exact Or.inr ⟨h1, h3⟩

/-- The startsWith-or-equals disjunct of the source, for a space-free
command, is equivalent to a first-token comparison. -/
theorem beginsWithCmd_eq (nq cmd : String) (hw : ' ' ∉ cmd.data) :
    beginsWithCmd nq cmd = decide (firstTok nq = cmd.data) := by
  unfold beginsWithCmd firstTok
  rw [Bool.eq_iff_iff]
  simp only [Bool.or_eq_true, decide_eq_true_eq, listPre_iff_pre]
  exact tok_of_begins cmd.data hw nq.data

theorem begins_SELECT (nq : String) :
    beginsWithCmd nq "SELECT" = decide (firstTok nq = "SELECT".data) :=
  beginsWithCmd_eq nq "SELECT" (by decide)

theorem begins_SHOW (nq : String) :
    beginsWithCmd nq "SHOW" = decide (firstTok nq = "SHOW".data) :=
  beginsWithCmd_eq nq "SHOW" (by decide)

theorem begins_DESCRIBE (nq : String) :
    beginsWithCmd nq "DESCRIBE" = decide (firstTok nq = "DESCRIBE".data) :=
  beginsWithCmd_eq nq "DESCRIBE" (by decide)

theorem begins_DESC (nq : String) :
    beginsWithCmd nq "DESC" = decide (firstTok nq = "DESC".data) :=
  beginsWithCmd_eq nq "DESC" (by decide)

theorem begins_EXPLAIN (nq : String) :
    beginsWithCmd nq "EXPLAIN" = decide (firstTok nq = "EXPLAIN".data) :=
  beginsWithCmd_eq nq "EXPLAIN" (by decide)

theorem begins_INSERT (nq : String) :
    beginsWithCmd nq "INSERT" = decide (firstTok nq = "INSERT".data) :=
  beginsWithCmd_eq nq "INSERT" (by decide)

theorem begins_UPDATE (nq : String) :
    beginsWithCmd nq "UPDATE" = decide (firstTok nq = "UPDATE".data) :=
  beginsWithCmd_eq nq "UPDATE" (by decide)

theorem begins_DELETE (nq : String) :
    beginsWithCmd nq "DELETE" = decide (firstTok nq = "DELETE".data) :=
  beginsWithCmd_eq nq "DELETE" (by decide)

/-- A query whose first token is INSERT is accepted by the leading-command
check exactly when the insert flag is enabled. -/
theorem startsWithAllowed_insert (f : Flags) (nq : String)
    (h : firstTok nq = "INSERT".data) :
    startsWithAllowed f nq = f.allowInsert := by
  obtain ⟨i, u, d⟩ := f
  cases i <;> cases u <;> cases d <;>
    simp [startsWithAllowed, allowedCommands, BASE_ALLOWED_COMMANDS,
      begins_SELECT, begins_SHOW, begins_DESCRIBE, begins_DESC, begins_EXPLAIN,
      begins_INSERT, begins_UPDATE, begins_DELETE, h]

/-- A query whose first token is UPDATE is accepted by the leading-command
check exactly when the update flag is enabled. -/
theorem startsWithAllowed_update (f : Flags) (nq : String)
    (h : firstTok nq = "UPDATE".data) :
    startsWithAllowed f nq = f.allowUpdate := by
  obtain ⟨i, u, d⟩ := f
  cases i <;> cases u <;> cases d <;>
    simp [startsWithAllowed, allowedCommands, BASE_ALLOWED_COMMANDS,
      begins_SELECT, begins_SHOW, begins_DESCRIBE, begins_DESC, begins_EXPLAIN,
      begins_INSERT, begins_UPDATE, begins_DELETE, h]

/-- A query whose first token is DELETE is accepted by the leading-command
check exactly when the delete flag is enabled. -/
theorem startsWithAllowed_delete (f : Flags) (nq : String)
    (h : firstTok nq = "DELETE".data) :
    startsWithAllowed f nq = f.allowDelete := by
  obtain ⟨i, u, d⟩ := f
  cases i <;> cases u <;> cases d <;>
    simp [startsWithAllowed, allowedCommands, BASE_ALLOWED_COMMANDS,
      begins_SELECT, begins_SHOW, begins_DESCRIBE, begins_DESC, begins_EXPLAIN,
      begins_INSERT, begins_UPDATE, begins_DELETE, h]

/-- A query whose first token is one of the five base read commands passes
the leading-command check under every flag setting. -/
theorem startsWithAllowed_base (f : Flags) (nq : String)
    (h : firstTok nq = "SELECT".data ∨ firstTok nq = "SHOW".data ∨
      firstTok nq = "DESCRIBE".data ∨ firstTok nq = "DESC".data ∨
      firstTok nq = "EXPLAIN".data) :
    startsWithAllowed f nq = true := by
  rcases h with h | h | h | h | h <;>
    simp [startsWithAllowed, allowedCommands, BASE_ALLOWED_COMMANDS,
      begins_SELECT, begins_SHOW, begins_DESCRIBE, begins_DESC, begins_EXPLAIN, h]

/-! ### Helper lemmas about result normalization -/

theorem convertJSList_eq (l : List JSValue) :
    convertJSList l = l.map convertBigIntToString := by
  induction l with
  | nil => rfl
  | cons v vs ih => simp [convertJSList, ih]

theorem convertJSFields_eq (fs : List (String × JSValue)) :
    convertJSFields fs = fs.map (fun kv => (kv.1, convertBigIntToString kv.2)) := by
  induction fs with
  | nil => rfl
  | cons kv rest ih =>
    obtain ⟨k, v⟩ := kv
    simp [convertJSFields, ih]

theorem hasBigIntList_eq (l : List JSValue) : hasBigIntList l = l.any hasBigInt := by
  induction l with
  | nil => rfl
  | cons v vs ih => simp [hasBigIntList, ih]

theorem hasBigIntFields_eq (fs : List (String × JSValue)) :
    hasBigIntFields fs = fs.any (fun kv => hasBigInt kv.2) := by
  induction fs with
  | nil => rfl
  | cons kv rest ih =>
    obtain ⟨k, v⟩ := kv
    simp [hasBigIntFields, ih]

theorem listMapSelf {α : Type} (f : α → α) :
    ∀ l : List α, (∀ a ∈ l, f a = a) → l.map f = l := by
  intro l
  induction l with
  | nil => intro _; rfl
  | cons a as ih =>
    intro h
    simp [h a (List.mem_cons_self a as),
      ih (fun x hx => h x (List.mem_cons_of_mem a hx))]

/-- The output of convertBigIntToString contains no bigint at any depth. -/
theorem convert_hasBigInt_false :
    ∀ v, hasBigInt (convertBigIntToString v) = false := by
  apply JSValue.inductionOn
  · rfl
  · rfl
  · intro b; rfl
  · intro n; rfl
  · intro s; rfl
  · intro i; rfl
  · intro l ih
    simp [convertBigIntToString, hasBigInt, convertJSList_eq, hasBigIntList_eq,
      List.any_map, List.any_eq_false]
    intro v hv
    simp [Function.comp, ih v hv]
  · intro fs ih
    simp [convertBigIntToString, hasBigInt, convertJSFields_eq, hasBigIntFields_eq,
      List.any_map, List.any_eq_false]
    intro k v hkv
    simp [Function.comp, ih (k, v) hkv]

/-- convertBigIntToString is the identity on every value that contains no
bigint at any depth. -/
theorem convert_id_of_clean :
    ∀ v, hasBigInt v = false → convertBigIntToString v = v := by
  apply JSValue.inductionOn
    (motive := fun v => hasBigInt v = false → convertBigIntToString v = v)
  · intro _; rfl
  · intro _; rfl
  · intro b _; rfl
  · intro n _; rfl
  · intro s _; rfl
  · intro i h; simp [hasBigInt] at h
  · intro l ih h
    simp [hasBigInt, hasBigIntList_eq, List.any_eq_false] at h
    simp [convertBigIntToString, convertJSList_eq]
    exact listMapSelf _ l (fun v hv => ih v hv (by simpa using h v hv))
  · intro fs ih h
    simp [hasBigInt, hasBigIntFields_eq, List.any_eq_false] at h
    simp [convertBigIntToString, convertJSFields_eq]
    apply listMapSelf _ fs
    intro kv hkv
    obtain ⟨k, v⟩ := kv
    have h2 := ih (k, v) hkv (by simpa using h k v hkv)
    simpa using h2

/-! ### The claims -/

/-- C1: for every query whose normalized text contains one of the
administrative/destructive commands as a standalone word (the scan of the
entire normalized text with the word-boundary regex), the admission check
isAlloowedQuery denies the query, for every setting of the three
write-permission flags — in particular even when the leading token is
SELECT and all flags are enabled. -/
theorem claim1_disallowed_word_denies (f : Flags) (q : String)
    (h : containsDisallowed (normalizeQuery q) = true) :
    isAlloowedQuery f q = false := by
  simp [isAlloowedQuery, h]

theorem claim1_witness :
    containsDisallowed (normalizeQuery "SELECT 1; DROP TABLE t") = true ∧
    isAlloowedQuery allFlags "SELECT 1; DROP TABLE t" = false :=
  ⟨by decide, claim1_disallowed_word_denies allFlags "SELECT 1; DROP TABLE t" (by decide)⟩

/-- C2, counterexample: the claim's criterion ("a separator that is not
solely a single trailing one") flags SELECT 1; SELECT 2; as a
multi-statement violation (it has two separators), yet the admission check
of the source allows that query: the source only tests contains-semicolon
and not-ends-with-semicolon, so any number of separators is accepted when
the text ends with one. -/
theorem claim2_counterexample :
    specMultiStatement (normalizeQuery "SELECT 1; SELECT 2;") = true ∧
    isAlloowedQuery noFlags "SELECT 1; SELECT 2;" = true :=
  ⟨by decide, by decide⟩

/-- C2, amended: admission denies for a multi-statement violation exactly
when the normalized text contains a ';' and does not end with ';', so a
query whose normalized text contains a non-final separator is denied, and
a query with a single trailing ';' (such as SELECT 1;) is not denied on
that basis — the first conjunct gives the denial direction, the second
shows SELECT 1; is allowed under every flag setting. -/
theorem claim2_amended (f : Flags) (q : String) :
    (decide (';' ∈ (normalizeQuery q).data) = true →
      strEndsWith (normalizeQuery q) ";" = false →
      isAlloowedQuery f q = false) ∧
    isAlloowedQuery f "SELECT 1;" = true := by
  constructor
  · intro h1 h2
    simp [isAlloowedQuery, hasMultipleStatements, h1, h2]
  · obtain ⟨i, u, d⟩ := f
    cases i <;> cases u <;> cases d <;> decide

theorem claim2_witness :
    isAlloowedQuery noFlags "SELECT 1; SELECT 2" = false ∧
    isAlloowedQuery noFlags "SELECT 1;" = true :=
  ⟨(claim2_amended noFlags "SELECT 1; SELECT 2").1 (by decide) (by decide),
   (claim2_amended noFlags "SELECT 1; SELECT 2").2⟩

/-- C3, counterexample: executeQuery on an allowed query whose execution
fails releases the checked-out session (session 0) back to the pool — the
final pool state holds session 0 as available — and the very next
acquisition from that pool hands back exactly the failed session 0,
contradicting the claim that a failed session is discarded and can never
be handed out again. -/
theorem claim3_counterexample :
    (executeQuery noFlags behQueryFails "SELECT 1" none
      { pool := none, connection := none }).outcome = Except.error "query failed" ∧
    (executeQuery noFlags behQueryFails "SELECT 1" none
      { pool := none, connection := none }).events =
      [DbEvent.acquire 0, DbEvent.runQuery 0 "SELECT 1", DbEvent.release 0] ∧
    (executeQuery noFlags behQueryFails "SELECT 1" none
      { pool := none, connection := none }).state.pool =
      some { available := [0], nextId := 1 } ∧
    (getConnection { available := [0], nextId := 1 }).1 = 0 :=
  ⟨rfl, rfl, rfl, rfl⟩

/-- C3, amended: whenever executeQuery fails after a pool session was
checked out, the session is released back to the pool (the catch block
calls connection.release and clears the module-level slot); the pool may
hand the same session to the next acquisition.  Starting from a fresh
state, the failed session 0 ends up available in the pool and is the one
returned by the next getConnection. -/
theorem claim3_amended (f : Flags) (beh : DbBehavior) (sql : String)
    (hA : beh.acquireFails = false) (hU : beh.useFails = false)
    (hQ : beh.queryFails = true) (h : isAlloowedQuery f sql = true) :
    (executeQuery f beh sql none
      { pool := none, connection := none }).outcome = Except.error "query failed" ∧
    (executeQuery f beh sql none { pool := none, connection := none }).state =
      { pool := some { available := [0], nextId := 1 }, connection := none } ∧
    (executeQuery f beh sql none { pool := none, connection := none }).events =
      [DbEvent.acquire 0, DbEvent.runQuery 0 sql, DbEvent.release 0] ∧
    (getConnection { available := [0], nextId := 1 }).1 = 0 := by
  refine ⟨?_, ?_, ?_, rfl⟩ <;>
    simp [executeQuery, tryBody, runWithConn, releaseSlot, releaseConn,
      getConnection, hA, hU, hQ, h]

theorem claim3_witness :
    isAlloowedQuery noFlags "SELECT 1" = true ∧
    (executeQuery noFlags behQueryFails "SELECT 1" none
      { pool := none, connection := none }).state =
      { pool := some { available := [0], nextId := 1 }, connection := none } :=
  ⟨by decide,
   (claim3_amended noFlags behQueryFails "SELECT 1" rfl rfl rfl (by decide)).2.1⟩

/-- C4, counterexample: a query refused by admission (DROP TABLE T under
default flags) still causes a connection acquisition and the USE
database-switch statement before the refusal is raised: the event trace of
the run is acquire, useDb, release, so the refusal does reach the
connection layer, contradicting the claimed ordering. -/
theorem claim4_counterexample :
    isAlloowedQuery noFlags "DROP TABLE T" = false ∧
    (executeQuery noFlags behOk "DROP TABLE T" (some "MYDB")
      { pool := none, connection := none }).outcome =
      Except.error "Query not allowed" ∧
    (executeQuery noFlags behOk "DROP TABLE T" (some "MYDB")
      { pool := none, connection := none }).events =
      [DbEvent.acquire 0, DbEvent.useDb 0 "MYDB", DbEvent.release 0] :=
  ⟨by decide, rfl, rfl⟩

/-- C4, amended: for every invocation of executeQuery whose query is
refused by admission, the refusal is raised before the main statement is
executed (no runQuery event occurs), but only after a connection has been
acquired from the pool (an acquire event does occur) and after the
optional USE statement; admission failures therefore do reach the
connection layer, though the refused statement itself is never sent. -/
theorem claim4_amended (f : Flags) (beh : DbBehavior) (sql : String)
    (db : Option String) (po : Option PoolState)
    (h1 : beh.acquireFails = false) (h2 : beh.useFails = false)
    (h3 : isAlloowedQuery f sql = false) :
    (executeQuery f beh sql db { pool := po, connection := none }).outcome =
      Except.error "Query not allowed" ∧
    (executeQuery f beh sql db
      { pool := po, connection := none }).events.filter isRunQueryEv = [] ∧
    (executeQuery f beh sql db
      { pool := po, connection := none }).events.filter isAcquireEv ≠ [] := by
  cases db <;>
    simp [executeQuery, tryBody, runWithConn, releaseSlot, releaseConn,
      isRunQueryEv, isAcquireEv, h1, h2, h3]

theorem claim4_witness :
    isAlloowedQuery noFlags "DROP TABLE T" = false ∧
    (executeQuery noFlags behOk "DROP TABLE T" (some "MYDB")
      { pool := none, connection := none }).events.filter isAcquireEv ≠ [] :=
  ⟨by decide,
   (claim4_amended noFlags behOk "DROP TABLE T" (some "MYDB") none
      rfl rfl (by decide)).2.2⟩

/-- C5, counterexample: a query beginning with INSERT whose insert flag is
enabled is nevertheless denied (it contains the standalone word DROP and a
non-final separator), so admission for INSERT/UPDATE/DELETE queries is not
equivalent to the corresponding flag alone. -/
theorem claim5_counterexample :
    firstTok (normalizeQuery "INSERT INTO T VALUES (1); DROP TABLE T") =
      "INSERT".data ∧
    (Flags.allowInsert ⟨true, false, false⟩) = true ∧
    isAlloowedQuery ⟨true, false, false⟩
      "INSERT INTO T VALUES (1); DROP TABLE T" = false :=
  ⟨by decide, rfl, by decide⟩

/-- C5, amended: for every query whose normalized leading token is INSERT,
UPDATE, or DELETE, admission allows it if and only if the corresponding
permission flag is enabled AND the text contains no disallowed command AND
it has no multi-statement violation; in particular INSERT INTO T VALUES (1)
is denied when the insert flag is false and allowed when it is true. -/
theorem claim5_amended (f : Flags) (q : String) :
    (firstTok (normalizeQuery q) = "INSERT".data →
      isAlloowedQuery f q = (f.allowInsert &&
        !containsDisallowed (normalizeQuery q) &&
        !hasMultipleStatements (normalizeQuery q))) ∧
    (firstTok (normalizeQuery q) = "UPDATE".data →
      isAlloowedQuery f q = (f.allowUpdate &&
        !containsDisallowed (normalizeQuery q) &&
        !hasMultipleStatements (normalizeQuery q))) ∧
    (firstTok (normalizeQuery q) = "DELETE".data →
      isAlloowedQuery f q = (f.allowDelete &&
        !containsDisallowed (normalizeQuery q) &&
        !hasMultipleStatements (normalizeQuery q))) := by
  refine ⟨fun h => ?_, fun h => ?_, fun h => ?_⟩
  · simp only [isAlloowedQuery]
    rw [startsWithAllowed_insert f (normalizeQuery q) h]
  · simp only [isAlloowedQuery]
    rw [startsWithAllowed_update f (normalizeQuery q) h]
  · simp only [isAlloowedQuery]
    rw [startsWithAllowed_delete f (normalizeQuery q) h]

theorem claim5_witness :
    firstTok (normalizeQuery "INSERT INTO T VALUES (1)") = "INSERT".data ∧
    isAlloowedQuery ⟨true, false, false⟩ "INSERT INTO T VALUES (1)" = true ∧
    isAlloowedQuery ⟨false, false, false⟩ "INSERT INTO T VALUES (1)" = false := by
  refine ⟨by decide, ?_, ?_⟩
  · rw [(claim5_amended ⟨true, false, false⟩ "INSERT INTO T VALUES (1)").1 (by decide)]
    decide
  · rw [(claim5_amended ⟨false, false, false⟩ "INSERT INTO T VALUES (1)").1 (by decide)]
    decide

/-- C6: every query whose normalized leading token is SELECT, SHOW,
DESCRIBE (or DESC), or EXPLAIN, containing no disallowed keyword and with
no multi-statement violation, is allowed by admission, and its admission
result is identical under any two settings of the three write-permission
flags. -/
theorem claim6_read_admission (f g : Flags) (q : String)
    (htok : firstTok (normalizeQuery q) = "SELECT".data ∨
      firstTok (normalizeQuery q) = "SHOW".data ∨
      firstTok (normalizeQuery q) = "DESCRIBE".data ∨
      firstTok (normalizeQuery q) = "DESC".data ∨
      firstTok (normalizeQuery q) = "EXPLAIN".data)
    (hdis : containsDisallowed (normalizeQuery q) = false)
    (hmul : hasMultipleStatements (normalizeQuery q) = false) :
    isAlloowedQuery f q = true ∧ isAlloowedQuery f q = isAlloowedQuery g q := by
  have h1 : isAlloowedQuery f q = true := by
    simp [isAlloowedQuery, startsWithAllowed_base f (normalizeQuery q) htok,
      hdis, hmul]
  have h2 : isAlloowedQuery g q = true := by
    simp [isAlloowedQuery, startsWithAllowed_base g (normalizeQuery q) htok,
      hdis, hmul]
  exact ⟨h1, h1.trans h2.symm⟩

theorem claim6_witness :
    isAlloowedQuery noFlags "SELECT * FROM T" = true ∧
    isAlloowedQuery noFlags "SELECT * FROM T" =
      isAlloowedQuery allFlags "SELECT * FROM T" :=
  claim6_read_admission noFlags allFlags "SELECT * FROM T"
    (Or.inl (by decide)) (by decide) (by decide)

/-- C7: when the raw result is a list of rows, the rows executeQuery
returns (row limiting followed by bigint conversion) number exactly the
minimum of the raw count and the cap DEFAULT_ROW_LIMIT = 1000, hence never
exceed the cap; and a raw result of 5000 rows is cut to exactly its first
1000 rows in order. -/
theorem claim7_row_cap :
    (∀ l : List JSValue,
      numRows (convertBigIntToString (limitRows (JSValue.varr l))) =
        some (min l.length DEFAULT_ROW_LIMIT)) ∧
    limitRows (JSValue.varr sampleRows5000) =
      JSValue.varr (sampleRows5000.take DEFAULT_ROW_LIMIT) ∧
    sampleRows5000.length = 5000 ∧
    sampleRows5000.take DEFAULT_ROW_LIMIT =
      (List.range 1000).map (fun n => JSValue.vnum (Int.ofNat n)) := by
  refine ⟨?_, ?_, ?_, ?_⟩
  · intro l
    by_cases hl : l.length > DEFAULT_ROW_LIMIT
    · simp [limitRows, hl, convertBigIntToString, convertJSList_eq, numRows,
        List.length_take]
      omega
    · simp [limitRows, hl, convertBigIntToString, convertJSList_eq, numRows]
      omega
  · have h5 : sampleRows5000.length = 5000 := by
      simp [sampleRows5000]
    simp [limitRows, h5, DEFAULT_ROW_LIMIT]
  · simp [sampleRows5000]
  · show List.take 1000 (List.map (fun n => JSValue.vnum (Int.ofNat n))
      (List.range 5000)) = List.map (fun n => JSValue.vnum (Int.ofNat n))
      (List.range 1000)
    rw [← List.map_take]
    norm_num [List.take_range]

/-- C8: result normalization (convertBigIntToString) leaves no bigint
anywhere at any nesting depth in its output, is the identity on every
value free of bigints (so null, boolean, ordinary numeric and text values
are returned unchanged, also inside arrays and objects), and renders a
bigint as its exact decimal string. -/
theorem claim8_bigint_normalization :
    (∀ v, hasBigInt (convertBigIntToString v) = false) ∧
    (∀ v, hasBigInt v = false → convertBigIntToString v = v) ∧
    (∀ i : Int, convertBigIntToString (JSValue.vbigint i) =
      JSValue.vstr (toString i)) :=
  ⟨convert_hasBigInt_false, convert_id_of_clean, fun _ => rfl⟩

theorem claim8_witness :
    hasBigInt (JSValue.varr [JSValue.vnum 1, JSValue.vstr "x"]) = false ∧
    convertBigIntToString (JSValue.varr [JSValue.vnum 1, JSValue.vstr "x"]) =
      JSValue.varr [JSValue.vnum 1, JSValue.vstr "x"] :=
  ⟨by decide, claim8_bigint_normalization.2.1 _ (by decide)⟩

/-- C9: on every exit path of executeQuery starting from a clean module
state (no session held between calls, which the function itself
re-establishes on every exit), the shared connection slot ends as null and
the sessions acquired during the call are exactly the sessions released
during the call — each checked-out session is released exactly once. -/
theorem claim9_session_discipline (f : Flags) (beh : DbBehavior) (sql : String)
    (db : Option String) (po : Option PoolState) :
    (executeQuery f beh sql db { pool := po, connection := none }).state.connection
      = none ∧
    ((executeQuery f beh sql db
        { pool := po, connection := none }).events.filter isAcquireEv).map evSession =
    ((executeQuery f beh sql db
        { pool := po, connection := none }).events.filter isReleaseEv).map evSession := by
  cases db <;> cases hA : beh.acquireFails <;> cases hU : beh.useFails <;>
    cases hQF : beh.queryFails <;> by_cases hAl : isAlloowedQuery f sql <;>
    simp [executeQuery, tryBody, runWithConn, releaseSlot, releaseConn,
      isAcquireEv, isReleaseEv, evSession, hA, hU, hQF, hAl]

/-- C10, counterexample: an environment in which MARIADB_HOST is present
but set to the empty string (and user and password are present and
non-empty) makes getConfigFromEnv raise the missing-host error, because
the source tests JavaScript falsiness rather than absence — contradicting
the claim that the function succeeds whenever all three variables are
present. -/
theorem claim10_counterexample :
    envEmptyHost.host.isSome = true ∧ envEmptyHost.user.isSome = true ∧
    envEmptyHost.password.isSome = true ∧
    getConfigFromEnv envEmptyHost =
      Except.error "MARIADB_HOST environment variable is required" :=
  ⟨rfl, rfl, rfl, rfl⟩

/-- C10, amended: getConfigFromEnv raises an error if and only if one of
MARIADB_HOST, MARIADB_USER, MARIADB_PASSWORD is absent or empty (falsy);
when all three are present and non-empty it always succeeds — in
particular a non-numeric MARIADB_PORT is accepted without error and yields
a configuration whose port is NaN (modelled as none). -/
theorem claim10_amended :
    (∀ env : EnvMap, configOk (getConfigFromEnv env) =
      (truthyEnv env.host && truthyEnv env.user && truthyEnv env.password)) ∧
    parseIntJS "abc" = none ∧
    getConfigFromEnv envBadPort = Except.ok
      { host := "h", port := none, user := "u", password := "p",
        database := none, allow_insert := false, allow_update := false,
        allow_delete := false } := by
  refine ⟨?_, rfl, rfl⟩
  intro env
  cases hH : truthyEnv env.host <;> cases hU : truthyEnv env.user <;>
    cases hP : truthyEnv env.password <;>
    simp [getConfigFromEnv, configOk, hH, hU, hP]

end MariadbMcp
